import Mathlib

/-!
Shallow embedding of the HRD web application backend
(`src/server/src/handlers/leave_requests.ts`, `dashboard.ts`,
`departments.ts` and `src/server/src/db/schema.ts`).

Modelling conventions:
* Database tables become lists of records inside a `Store`; SQL
  `select ... where` becomes `List.filter` / `List.find?`, `inner join`
  on `employee_id = employee_profiles.id` becomes a lookup with
  `List.find?` over the employee list (primary keys are unique in the
  database, so the first match is the row).
* Calendar-date columns (`date`, `start_date`, `end_date`) are integer
  day numbers; timestamp values handed to handlers (JavaScript
  `Date.getTime()`) are integer milliseconds; `msPerDay = 86400000`.
* `numeric` columns surfaced as JavaScript numbers (`work_hours`,
  averages, rates) are rationals (`ℚ`); the arithmetic in the source is
  exact on the values the spec talks about.
* Fallible handlers return `Except HrError`; a thrown error means no
  write happened (every `throw` in the source precedes the write).
* The clock (`new Date()`) is passed explicitly: `today` / `now` as a
  parameter, and the current-year / current-month boundaries as
  parameters where the source computes them from the clock.
* JavaScript truthiness of the optional `employeeId` parameter
  (`userRole === 'manager' && employeeId`) is modelled on `Option Nat`:
  `none` and `some 0` are falsy.
-/

namespace HRD

/-- Leave types, from `leaveTypeEnum` in `db/schema.ts`. -/
inductive LeaveType
  | annual
  | sick
  | maternity
  | paternity
  | emergency
deriving DecidableEq, Repr

/-- Leave request status, from `leaveStatusEnum` in `db/schema.ts`. -/
inductive LeaveStatus
  | pending
  | approved
  | rejected
deriving DecidableEq, Repr

/-- Attendance status, from `attendanceStatusEnum` in `db/schema.ts`. -/
inductive AttendanceStatus
  | present
  | absent
  | late
  | early_leave
deriving DecidableEq, Repr

/-- Error kinds named by the spec (§7); the handlers throw
`Error('... not found')`, `Error('Leave request is not pending')` and
`Error('Cannot delete department with assigned employees')`,
which the spec classifies as NotFound / InvalidState / Conflict. -/
inductive HrError
  | NotFound
  | InvalidState
  | Conflict
deriving DecidableEq, Repr

/-- Employee profile row (`employeeProfilesTable`), restricted to the
columns the verified handlers read. -/
structure EmployeeProfile where
  id : Nat
  department : Option String
  manager_id : Option Nat
deriving DecidableEq, Repr

/-- Attendance row (`attendanceTable`), restricted to the columns the
verified handlers read.  `date` is a day number, `work_hours` a
nullable decimal. -/
structure Attendance where
  id : Nat
  employee_id : Nat
  date : Int
  status : AttendanceStatus
  work_hours : Option ℚ
deriving DecidableEq, Repr

/-- Leave request row (`leaveRequestsTable`).  `start_date` / `end_date`
are day numbers, `approved_at` a nullable timestamp (ms). -/
structure LeaveRequest where
  id : Nat
  employee_id : Nat
  leave_type : LeaveType
  start_date : Int
  end_date : Int
  days_requested : Int
  reason : String
  status : LeaveStatus
  approved_by : Option Nat
  approved_at : Option Int
  rejection_reason : Option String
deriving DecidableEq, Repr

/-- Department row (`departmentsTable`), restricted to the columns the
verified handlers read. -/
structure Department where
  id : Nat
  name : String
deriving DecidableEq, Repr

/-- The relational store: one list per table. -/
structure Store where
  employees : List EmployeeProfile
  attendance : List Attendance
  leaveRequests : List LeaveRequest
  departments : List Department
deriving DecidableEq, Repr

/-- Milliseconds per day, the `1000 * 60 * 60 * 24` of the source. -/
def msPerDay : Int := 86400000

/-- Ceiling division of integers (`Math.ceil(a / b)` for exact integer
inputs), for a positive divisor. -/
def ceilDiv (a b : Int) : Int := -((-a).ediv b)

/-- The employee-existence check shared by the handlers:
`select from employee_profiles where id = employeeId limit 1` followed
by `length === 0`. -/
def employeeExists (s : Store) (employeeId : Nat) : Bool :=
  s.employees.any fun e => e.id == employeeId

/-- Input of `createLeaveRequest` (`createLeaveRequestInputSchema`):
the two dates are arbitrary `Date` values, kept as millisecond
timestamps. -/
structure CreateLeaveRequestInput where
  leave_type : LeaveType
  start_ms : Int
  end_ms : Int
  reason : String
deriving DecidableEq, Repr

/-- Input of `rejectLeaveRequest` (`updateLeaveRequestStatusInputSchema`
without the `status` field, which the handler ignores). -/
structure UpdateLeaveRequestStatusInput where
  id : Nat
  rejection_reason : Option String
deriving DecidableEq, Repr

/-- The row inserted by `createLeaveRequest`:
`daysDiff = Math.ceil((end - start) / msPerDay) + 1`, status pending,
stored dates the UTC calendar days of the inputs
(`toISOString().split('T')[0]`). -/
def newLeaveRow (s : Store) (employeeId : Nat)
    (input : CreateLeaveRequestInput) : LeaveRequest :=
  { id := s.leaveRequests.length + 1
    employee_id := employeeId
    leave_type := input.leave_type
    start_date := input.start_ms.ediv msPerDay
    end_date := input.end_ms.ediv msPerDay
    days_requested := ceilDiv (input.end_ms - input.start_ms) msPerDay + 1
    reason := input.reason
    status := .pending
    approved_by := none
    approved_at := none
    rejection_reason := none }

/-- `createLeaveRequest` from `handlers/leave_requests.ts` (lines 6-48):
validates the employee, then inserts the computed row. -/
def createLeaveRequest (s : Store) (employeeId : Nat)
    (input : CreateLeaveRequestInput) : Except HrError (LeaveRequest × Store) :=
  if employeeExists s employeeId then
    .ok (newLeaveRow s employeeId input,
      { s with leaveRequests := s.leaveRequests ++ [newLeaveRow s employeeId input] })
  else
    .error .NotFound

/-- The row update performed by `approveLeaveRequest`. -/
def approveRow (approverId : Nat) (now : Int) (l : LeaveRequest) : LeaveRequest :=
  { l with status := .approved, approved_by := some approverId,
           approved_at := some now }

/-- `approveLeaveRequest` from `handlers/leave_requests.ts`
(lines 118-170): request must exist, must be pending, approver must
exist; then `update ... set status='approved', approved_by, approved_at
where id = requestId`. -/
def approveLeaveRequest (s : Store) (requestId approverId : Nat)
    (now : Int) : Except HrError (LeaveRequest × Store) :=
  match s.leaveRequests.find? (fun l => l.id == requestId) with
  | none => .error .NotFound
  | some req =>
    if req.status ≠ .pending then .error .InvalidState
    else if employeeExists s approverId then
      .ok (approveRow approverId now req,
        { s with leaveRequests := s.leaveRequests.map fun l =>
            if l.id == requestId then approveRow approverId now l else l })
    else .error .NotFound

/-- The row update performed by `rejectLeaveRequest`; the source stores
`input.rejection_reason || null`, so an empty string becomes null. -/
def rejectRow (input : UpdateLeaveRequestStatusInput) (approverId : Nat)
    (now : Int) (l : LeaveRequest) : LeaveRequest :=
  { l with status := .rejected, approved_by := some approverId,
           approved_at := some now,
           rejection_reason :=
             match input.rejection_reason with
             | some str => if str = "" then none else some str
             | none => none }

/-- `rejectLeaveRequest` from `handlers/leave_requests.ts`
(lines 172-225): same precondition chain as approve, then
`update ... set status='rejected', approved_by, approved_at,
rejection_reason where id = input.id`. -/
def rejectLeaveRequest (s : Store) (input : UpdateLeaveRequestStatusInput)
    (approverId : Nat) (now : Int) : Except HrError (LeaveRequest × Store) :=
  match s.leaveRequests.find? (fun l => l.id == input.id) with
  | none => .error .NotFound
  | some req =>
    if req.status ≠ .pending then .error .InvalidState
    else if employeeExists s approverId then
      .ok (rejectRow input approverId now req,
        { s with leaveRequests := s.leaveRequests.map fun l =>
            if l.id == input.id then rejectRow input approverId now l else l })
    else .error .NotFound

/-- Balance record returned by `getLeaveBalance`. -/
structure LeaveBalance where
  annual : Int
  sick : Int
  total_used : Int
deriving DecidableEq, Repr

/-- The year filter of `getLeaveBalance`: approved requests of the
employee with `start_date >= yearStart` and `end_date <= yearEnd`. -/
def approvedInYear (s : Store) (employeeId : Nat) (yearStart yearEnd : Int) :
    List LeaveRequest :=
  s.leaveRequests.filter fun l =>
    l.employee_id == employeeId && l.status == .approved &&
    decide (yearStart ≤ l.start_date) && decide (l.end_date ≤ yearEnd)

/-- One step of the `approvedLeave.forEach` accumulation of
`getLeaveBalance`: the state is `(annualUsed, sickUsed, totalUsed)`. -/
def balanceStep (u : Int × Int × Int) (leave : LeaveRequest) : Int × Int × Int :=
  let total := u.2.2 + leave.days_requested
  if leave.leave_type = .annual then
    (u.1 + leave.days_requested, u.2.1, total)
  else if leave.leave_type = .sick then
    (u.1, u.2.1 + leave.days_requested, total)
  else
    (u.1, u.2.1, total)

/-- `getLeaveBalance` from `handlers/leave_requests.ts` (lines 302-359):
validates the employee, scans the current year's approved requests and
accumulates `annualUsed` / `sickUsed` / `totalUsed` exactly as the
source `forEach` does, then returns `25 - annualUsed`, `15 - sickUsed`,
`totalUsed`.  The year boundaries computed from the clock in the source
are passed as parameters. -/
def getLeaveBalance (s : Store) (employeeId : Nat) (yearStart yearEnd : Int) :
    Except HrError LeaveBalance :=
  if employeeExists s employeeId then
    let u := (approvedInYear s employeeId yearStart yearEnd).foldl
      balanceStep (0, 0, 0)
    .ok { annual := 25 - u.1, sick := 15 - u.2.1, total_used := u.2.2 }
  else
    .error .NotFound

/-- Sum of `days_requested` over a list of requests. -/
def sumDays (l : List LeaveRequest) : Int :=
  (l.map fun r => r.days_requested).sum

/-- JavaScript truthiness of the optional `employeeId : number`
parameter: `undefined` and `0` are falsy. -/
def truthy : Option Nat → Bool
  | none => false
  | some e => e != 0

/-- The repeated scope test of `dashboard.ts`:
`userRole === 'manager' && employeeId`. -/
def managerScoped (userRole : String) (employeeId : Option Nat) : Bool :=
  userRole == "manager" && truthy employeeId

/-- Inner-join check: row owner `x` must resolve to an employee row and
that row must satisfy `p`.  This is the functional reading of
`inner join employee_profiles on ... where p(employee_profiles)`. -/
def lookupCheck (p : EmployeeProfile → Bool) (x : Nat)
    (L : List EmployeeProfile) : Bool :=
  match L.find? (fun e => e.id == x) with
  | none => false
  | some e => p e

/-- The join-plus-scope predicate every dashboard query applies to a row
owned by employee `eid`: the inner join demands an existing employee
profile, and the manager branch additionally demands
`employee_profiles.manager_id = employeeId`. -/
def scopePass (s : Store) (scp : Bool) (mid : Nat) (eid : Nat) : Bool :=
  lookupCheck (fun e => !scp || e.manager_id == some mid) eid s.employees

/-- `Math.round` on a rational: JavaScript rounds halves toward
positive infinity, which is Mathlib's `round`. -/
def jsRound (q : ℚ) : Int := round q

/-- `Math.round(x * 10) / 10`, the source's rounding to one decimal. -/
def round1 (q : ℚ) : ℚ := (jsRound (q * 10) : ℚ) / 10

/-- Result record of `getDashboardStats`. -/
structure DashboardStats where
  total_employees : Int
  present_today : Int
  absent_today : Int
  late_today : Int
  pending_leave_requests : Int
  total_departments : Int
  average_work_hours : ℚ
deriving DecidableEq, Repr

/-- `getDashboardStats` from `handlers/dashboard.ts` (lines 12-149).
`today` is the day number of the clock's date; the source's
`oneWeekAgo` is `today - 7`.  Each sub-query keeps the source's
structure: employee count (scoped or not), today's attendance counts
grouped by status behind the inner join, pending leave count behind the
inner join, department count only for admin / hr_manager, and the mean
of the non-null `work_hours` of the trailing week's attendance rows,
rounded to one decimal. -/
def getDashboardStats (s : Store) (userRole : String)
    (employeeId : Option Nat) (today : Int) : DashboardStats :=
  let scp := managerScoped userRole employeeId
  let mid := employeeId.getD 0
  let totalEmployees : Int :=
    if scp then
      ((s.employees.filter fun e => e.manager_id == some mid).length : Int)
    else
      (s.employees.length : Int)
  let attToday := s.attendance.filter fun a =>
    a.date == today && scopePass s scp mid a.employee_id
  let presentToday : Int :=
    ((attToday.filter fun a => a.status == .present).length : Int)
  let lateToday : Int :=
    ((attToday.filter fun a => a.status == .late).length : Int)
  let absentToday := totalEmployees - presentToday - lateToday
  let pendingLeave : Int :=
    ((s.leaveRequests.filter fun l =>
        l.status == .pending && scopePass s scp mid l.employee_id).length : Int)
  let totalDepartments : Int :=
    if userRole == "admin" || userRole == "hr_manager" then
      (s.departments.length : Int)
    else 0
  let weekRows := s.attendance.filter fun a =>
    decide (today - 7 ≤ a.date) && decide (a.date ≤ today) &&
      scopePass s scp mid a.employee_id
  let validWorkHours := weekRows.filterMap fun a => a.work_hours
  let averageWorkHours : ℚ :=
    if validWorkHours.length > 0 then
      validWorkHours.sum / (validWorkHours.length : ℚ)
    else 0
  { total_employees := totalEmployees
    present_today := presentToday
    absent_today := absentToday
    late_today := lateToday
    pending_leave_requests := pendingLeave
    total_departments := totalDepartments
    average_work_hours := round1 averageWorkHours }

/-- Result record of `getLeaveStats`. -/
structure LeaveStats where
  pending_requests : Int
  approved_this_month : Int
  rejected_this_month : Int
  most_common_leave_type : LeaveType
  average_leave_days : ℚ
deriving DecidableEq, Repr

/-- Count of requests of one leave type in a list. -/
def leaveTypeCount (l : List LeaveRequest) (t : LeaveType) : Nat :=
  (l.filter fun r => r.leave_type == t).length

/-- The `group by leave_type order by count desc limit 1` of
`getLeaveStats`, with `annual` as the default when there are no rows.
SQL leaves the order of equal counts unspecified; this deterministic
stand-in prefers `annual` and then the declaration order of the enum on
ties. -/
def mostCommonLeaveType (l : List LeaveRequest) : LeaveType :=
  [LeaveType.sick, .maternity, .paternity, .emergency].foldl
    (fun best t =>
      if leaveTypeCount l t > leaveTypeCount l best then t else best)
    .annual

/-- The month filter of `getLeaveStats`:
`approved_at >= currentMonth && approved_at <= nextMonth` (null
`approved_at` fails both SQL comparisons). -/
def approvedAtInMonth (monthStart nextMonth : Int) (l : LeaveRequest) : Bool :=
  match l.approved_at with
  | none => false
  | some t => decide (monthStart ≤ t) && decide (t ≤ nextMonth)

/-- `getLeaveStats` from `handlers/dashboard.ts` (lines 425-574).
Every sub-query inner-joins the employee table and applies the manager
scope; the month boundaries computed from the clock in the source are
passed as parameters. -/
def getLeaveStats (s : Store) (userRole : String) (employeeId : Option Nat)
    (monthStart nextMonth : Int) : LeaveStats :=
  let scp := managerScoped userRole employeeId
  let mid := employeeId.getD 0
  let joined := s.leaveRequests.filter fun l =>
    scopePass s scp mid l.employee_id
  let pending : Int :=
    ((joined.filter fun l => l.status == .pending).length : Int)
  let approvedM : Int :=
    ((joined.filter fun l =>
        l.status == .approved && approvedAtInMonth monthStart nextMonth l).length : Int)
  let rejectedM : Int :=
    ((joined.filter fun l =>
        l.status == .rejected && approvedAtInMonth monthStart nextMonth l).length : Int)
  let approvedAll := joined.filter fun l => l.status == .approved
  let averageLeaveDays : ℚ :=
    if approvedAll.length > 0 then
      round1 ((sumDays approvedAll : ℚ) / (approvedAll.length : ℚ))
    else 0
  { pending_requests := pending
    approved_this_month := approvedM
    rejected_this_month := rejectedM
    most_common_leave_type := mostCommonLeaveType joined
    average_leave_days := averageLeaveDays }

/-- Result entry of `getDepartmentStats`. -/
structure DepartmentStat where
  department : String
  total_employees : Nat
  present_today : Nat
  attendance_rate : ℚ
deriving DecidableEq, Repr

/-- The distinct non-null department labels, the
`group by department where department is not null` of
`getDepartmentStats`.  SQL leaves the group order unspecified;
`dedup` is the deterministic stand-in (the final result is sorted
anyway). -/
def deptLabels (s : Store) : List String :=
  (s.employees.filterMap fun e => e.department).dedup

/-- One entry of `getDepartmentStats` for department label `d`:
employee count by string match, today's present + late attendance
counts behind the inner join restricted to employees of `d`, and
`Math.round((present / total) * 100 * 10) / 10` (0 when the department
is empty). -/
def deptEntry (s : Store) (today : Int) (d : String) : DepartmentStat :=
  let total := (s.employees.filter fun e => e.department == some d).length
  let attDept := s.attendance.filter fun a =>
    a.date == today &&
      lookupCheck (fun e => e.department == some d) a.employee_id s.employees
  let present := (attDept.filter fun a => a.status == .present).length
  let late := (attDept.filter fun a => a.status == .late).length
  let totalPresent := present + late
  let rate : ℚ :=
    if total > 0 then round1 ((totalPresent : ℚ) / (total : ℚ) * 100)
    else 0
  { department := d
    total_employees := total
    present_today := totalPresent
    attendance_rate := rate }

/-- The comparator of `results.sort((a, b) => b.total_employees -
a.total_employees)`: larger departments first. -/
def deptGE (a b : DepartmentStat) : Bool :=
  decide (b.total_employees ≤ a.total_employees)

/-- `getDepartmentStats` from `handlers/dashboard.ts` (lines 366-423):
one entry per distinct non-null department label, sorted by
`total_employees` descending. -/
def getDepartmentStats (s : Store) (today : Int) : List DepartmentStat :=
  (((deptLabels s).map (deptEntry s today)).mergeSort deptGE)

/-- The direct reports of manager `m`: employees whose `manager_id`
equals `m` (one level, not transitive). -/
def directReports (s : Store) (m : Nat) : List EmployeeProfile :=
  s.employees.filter fun e => e.manager_id == some m

/-- The attendance rows owned by a direct report of manager `m`. -/
def scopedAttendance (s : Store) (m : Nat) : List Attendance :=
  s.attendance.filter fun a =>
    s.employees.any fun e => e.id == a.employee_id && e.manager_id == some m

/-- The leave-request rows owned by a direct report of manager `m`. -/
def scopedLeaves (s : Store) (m : Nat) : List LeaveRequest :=
  s.leaveRequests.filter fun l =>
    s.employees.any fun e => e.id == l.employee_id && e.manager_id == some m

/-- The non-null work hours of the attendance rows that `getDashboardStats`
averages, written out independently of the handler: rows of existing
employees under the role scope whose date lies in the trailing window
`today - 7 .. today` (both ends inclusive). -/
def weekWindowHours (s : Store) (userRole : String) (employeeId : Option Nat)
    (today : Int) : List ℚ :=
  (s.attendance.filter fun a =>
      decide (today - 7 ≤ a.date) && decide (a.date ≤ today) &&
        s.employees.any fun e =>
          e.id == a.employee_id &&
            (!(managerScoped userRole employeeId) ||
              e.manager_id == some (employeeId.getD 0))).filterMap
    fun a => a.work_hours

/-- Arithmetic mean of a list of rationals, `0` for the empty list. -/
def meanQ (l : List ℚ) : ℚ :=
  if l = [] then 0 else l.sum / (l.length : ℚ)

/-- Days requested of the first request of a handler result, `none` on
error; a convenience projection for stating concrete facts. -/
def requestDays : Except HrError (LeaveRequest × Store) → Option Int
  | .ok (r, _) => some r.days_requested
  | .error _ => none

/-- `deleteDepartment` from `handlers/departments.ts` (lines 205-236):
the department must exist; if any employee profile's free-text
`department` equals its name the call fails with Conflict, otherwise
the row is deleted and `true` returned. -/
def deleteDepartment (s : Store) (id : Nat) : Except HrError (Bool × Store) :=
  match s.departments.find? (fun d => d.id == id) with
  | none => .error .NotFound
  | some dept =>
    if (s.employees.filter fun e => e.department == some dept.name).length > 0
    then .error .Conflict
    else .ok (true,
      { s with departments := s.departments.filter fun d => !(d.id == id) })

deriving instance DecidableEq for Except

/-!  Concrete stores and inputs used by the witnesses and the concrete
facts below.  Row order inside the tuples follows the structure
declarations above. -/

/-- One employee with two approved (5-day annual, 2-day sick), one
pending and one rejected request, all inside the year window `0 .. 364`. -/
def exBal : Store :=
  ⟨[⟨1, none, none⟩], [],
   [⟨1, 1, .annual, 10, 14, 5, "vacation", .approved, some 1, some 0, none⟩,
    ⟨2, 1, .sick, 20, 21, 2, "flu", .approved, some 1, some 0, none⟩,
    ⟨3, 1, .annual, 30, 39, 10, "trip", .pending, none, none, none⟩,
    ⟨4, 1, .emergency, 40, 41, 2, "urgent", .rejected, some 1, some 0, none⟩],
   []⟩

/-- A store holding just one employee profile. -/
def exEmp : Store := ⟨[⟨1, none, none⟩], [], [], []⟩

/-- A same-day leave request (start and end at the same instant). -/
def exSameDay : CreateLeaveRequestInput := ⟨.annual, 0, 0, "checkup"⟩

/-- A request whose end (day 0, 23:00) precedes its start (day 1, 12:00)
by less than one full day. -/
def exBackdated : CreateLeaveRequestInput := ⟨.annual, 129600000, 82800000, "trip"⟩

/-- A request whose end precedes its start by two full days. -/
def exReversed : CreateLeaveRequestInput := ⟨.annual, 172800000, 0, "past"⟩

/-- One approver profile and one already-approved leave request. -/
def exApproved : Store :=
  ⟨[⟨9, none, none⟩], [],
   [⟨5, 9, .annual, 0, 1, 2, "offsite", .approved, some 9, some 0, none⟩], []⟩

/-- An empty organization with a single department row. -/
def exOneDept : Store := ⟨[], [], [], [⟨1, "Engineering"⟩]⟩

/-- One employee whose only attendance row is dated `today - 7` (with
`today = 7`) and carries 8 work hours. -/
def exWeekEdge : Store :=
  ⟨[⟨1, none, none⟩], [⟨1, 1, 0, .present, some 8⟩], [], []⟩

/-- Two departments: Engineering with 2 employees, 1 present today;
HR with 1 employee, 1 present today. -/
def exDeptRates : Store :=
  ⟨[⟨1, some "Engineering", none⟩, ⟨2, some "Engineering", none⟩,
    ⟨3, some "HR", none⟩],
   [⟨1, 1, 0, .present, none⟩, ⟨2, 3, 0, .present, none⟩], [], []⟩

/-- A department and one employee whose free-text department matches it. -/
def exDeptBusy : Store := ⟨[⟨1, some "Sales", none⟩], [], [], [⟨3, "Sales"⟩]⟩

/-- One employee with two `present` attendance rows dated today. -/
def exDoubleRow : Store :=
  ⟨[⟨1, none, none⟩], [⟨1, 1, 0, .present, none⟩, ⟨2, 1, 0, .present, none⟩],
   [], []⟩

/-- Manager 1 with direct report 2; the report has one attendance row
and one pending request. -/
def exScope1 : Store :=
  ⟨[⟨1, none, none⟩, ⟨2, none, some 1⟩],
   [⟨1, 2, 0, .present, none⟩],
   [⟨1, 2, .annual, 0, 1, 2, "pto", .pending, none, none, none⟩],
   [⟨1, "Design"⟩]⟩

/-- The same store as `exScope1` except for rows of employee 3, who is
not a direct report of manager 1, and an extra department. -/
def exScope2 : Store :=
  ⟨[⟨1, none, none⟩, ⟨2, none, some 1⟩, ⟨3, none, none⟩],
   [⟨1, 2, 0, .present, none⟩, ⟨7, 3, 0, .late, none⟩],
   [⟨1, 2, .annual, 0, 1, 2, "pto", .pending, none, none, none⟩,
    ⟨9, 3, .sick, 0, 1, 2, "rest", .pending, none, none, none⟩],
   [⟨1, "Design"⟩, ⟨2, "Sales"⟩]⟩

/-!  Helper lemmas. -/

/-- When employee ids are distinct (they are primary keys), the
first-match join lookup agrees with an existential scan of the table. -/
lemma lookupCheck_eq_any (p : EmployeeProfile → Bool) (x : Nat) :
    ∀ L : List EmployeeProfile, (L.map fun e => e.id).Nodup →
      lookupCheck p x L = L.any fun e => e.id == x && p e := by
  intro L
  induction L with
  | nil => intro _; rfl
  | cons a L ih =>
    intro hnd
    rw [List.map_cons, List.nodup_cons] at hnd
    obtain ⟨hniL, hnd⟩ := hnd
    by_cases ha : (a.id == x) = true
    · have hxa : a.id = x := by simpa using ha
      have hnone : (L.any fun e => e.id == x && p e) = false := by
        rw [List.any_eq_false]
        intro e he hpe
        rw [Bool.and_eq_true] at hpe
        have hex : e.id = x := by simpa using hpe.1
        exact hniL (List.mem_map.mpr ⟨e, he, by rw [hex, hxa]⟩)
      have hfind : (a :: L).find? (fun e => e.id == x) = some a :=
        List.find?_cons_of_pos _ ha
      simp [lookupCheck, hfind, ha, hnone]
    · have ha' : (a.id == x) = false := by simpa using ha
      have hfind : (a :: L).find? (fun e => e.id == x)
          = L.find? (fun e => e.id == x) :=
        List.find?_cons_of_neg _ ha
      have := ih hnd
      simp only [lookupCheck] at this ⊢
      simp [hfind, ha', this]

/-- The dashboard scope predicate as an existential scan, under
primary-key uniqueness of employee ids. -/
lemma scopePass_eq_any (s : Store) (scp : Bool) (mid eid : Nat)
    (h : (s.employees.map fun e => e.id).Nodup) :
    scopePass s scp mid eid
      = s.employees.any fun e =>
          e.id == eid && (!scp || e.manager_id == some mid) :=
  lookupCheck_eq_any _ _ _ h

/-- Counting two mutually exclusive filters separately and adding is
counting their disjunction. -/
lemma length_filter_disjoint {α : Type} (p q : α → Bool)
    (hpq : ∀ a, p a = true → q a = false) :
    ∀ l : List α,
      (l.filter p).length + (l.filter q).length
        = (l.filter fun a => p a || q a).length := by
  intro l
  induction l with
  | nil => rfl
  | cons a l ih =>
    by_cases hp : p a = true
    · simp [List.filter_cons, hp, hpq a hp]
      omega
    · have hp' : p a = false := by simpa using hp
      by_cases hq : q a = true
      · simp [List.filter_cons, hp', hq]
        omega
      · have hq' : q a = false := by simpa using hq
        simp [List.filter_cons, hp', hq']
        omega

/-- The accumulation of `getLeaveBalance` splits into the three sums the
spec talks about. -/
lemma balance_foldl :
    ∀ (l : List LeaveRequest) (a b c : Int),
      l.foldl balanceStep (a, b, c)
        = (a + sumDays (l.filter fun r => r.leave_type == .annual),
           b + sumDays (l.filter fun r => r.leave_type == .sick),
           c + sumDays l) := by
  intro l
  induction l with
  | nil => intro a b c; simp [sumDays]
  | cons r l ih =>
    intro a b c
    rw [List.foldl_cons]
    by_cases h1 : r.leave_type = .annual
    · simp only [balanceStep, h1, if_true, eq_self_iff_true]
      rw [ih]
      simp [sumDays, List.filter_cons, h1, Prod.mk.injEq]
      omega
    · by_cases h2 : r.leave_type = .sick
      · simp only [balanceStep, h2, if_neg h1, if_true, eq_self_iff_true]
        rw [ih]
        simp [sumDays, List.filter_cons, h2, h1, Prod.mk.injEq]
        omega
      · simp only [balanceStep, if_neg h1, if_neg h2]
        rw [ih]
        simp [sumDays, List.filter_cons, h2, h1, Prod.mk.injEq]
        omega

/-- The year filter of the balance scans only approved rows: it factors
through a pre-filter on `status == approved`. -/
lemma approvedInYear_factor (s : Store) (eid : Nat) (ys ye : Int) :
    approvedInYear s eid ys ye
      = (s.leaveRequests.filter fun l => l.status == .approved).filter
          fun l => l.employee_id == eid &&
            decide (ys ≤ l.start_date) && decide (l.end_date ≤ ye) := by
  rw [approvedInYear, List.filter_filter]
  exact List.filter_congr fun l _ => by
    cases hl : l.status == .approved <;>
      cases he : l.employee_id == eid <;> simp [hl, he, Bool.and_comm]

/-- A per-id row update (`update ... where id = rid`) keeps `find?` by
id in step: the found row is the updated original. -/
lemma find?_map_of_id (f : LeaveRequest → LeaveRequest) (rid : Nat)
    (hf : ∀ x, (f x).id = x.id) :
    ∀ (L : List LeaveRequest) (r : LeaveRequest),
      L.find? (fun l => l.id == rid) = some r →
      (L.map f).find? (fun l => l.id == rid) = some (f r) := by
  intro L
  induction L with
  | nil => intro r hr; cases hr
  | cons a L ih =>
    intro r hr
    by_cases ha : (a.id == rid) = true
    · rw [@List.find?_cons_of_pos _ (fun l => l.id == rid) a L ha] at hr
      cases hr
      rw [List.map_cons]
      rw [@List.find?_cons_of_pos _ (fun l => l.id == rid) (f a) (L.map f)
        (show ((f a).id == rid) = true by simpa [hf] using ha)]
    · rw [@List.find?_cons_of_neg _ (fun l => l.id == rid) a L ha] at hr
      rw [List.map_cons]
      rw [@List.find?_cons_of_neg _ (fun l => l.id == rid) (f a) (L.map f)
        (show ¬ ((f a).id == rid) = true by simpa [hf] using ha)]
      exact ih r hr

/-!  Claims. -/

/-- C2: for every `createLeaveRequest` call whose employee profile
exists, the call succeeds and the persisted request has
`days_requested = ceil((end - start) in days) + 1`, so a request with
equal start and end dates yields `days_requested = 1`. -/
theorem createLeaveRequest_days (s : Store) (eid : Nat)
    (inp : CreateLeaveRequestInput) (h : employeeExists s eid = true) :
    ∃ r s2, createLeaveRequest s eid inp = .ok (r, s2)
      ∧ r.days_requested = ceilDiv (inp.end_ms - inp.start_ms) msPerDay + 1
      ∧ r ∈ s2.leaveRequests
      ∧ (inp.end_ms = inp.start_ms → r.days_requested = 1) := by
  refine ⟨newLeaveRow s eid inp,
    { s with leaveRequests := s.leaveRequests ++ [newLeaveRow s eid inp] },
    by rw [createLeaveRequest, if_pos h], rfl, by simp, ?_⟩
  intro hse
  show ceilDiv (inp.end_ms - inp.start_ms) msPerDay + 1 = 1
  rw [hse, sub_self]
  decide

/-- Witness for C2 at a concrete store and a same-day request. -/
theorem createLeaveRequest_days_witness :
    employeeExists exEmp 1 = true
    ∧ (∃ r s2, createLeaveRequest exEmp 1 exSameDay = .ok (r, s2)
        ∧ r.days_requested
            = ceilDiv (exSameDay.end_ms - exSameDay.start_ms) msPerDay + 1
        ∧ r ∈ s2.leaveRequests
        ∧ (exSameDay.end_ms = exSameDay.start_ms → r.days_requested = 1)) :=
  ⟨by decide, createLeaveRequest_days exEmp 1 exSameDay (by decide)⟩

/-- C9 fails as stated: a request whose end precedes its start by less
than one full day (end day 0 at 23:00, start day 1 at 12:00 — even the
persisted calendar end day is strictly earlier) is accepted with
`days_requested = 1`, not `≤ 0`. -/
theorem createLeaveRequest_negative_days_cex :
    exBackdated.end_ms < exBackdated.start_ms
    ∧ exBackdated.end_ms.ediv msPerDay < exBackdated.start_ms.ediv msPerDay
    ∧ requestDays (createLeaveRequest exEmp 1 exBackdated) = some 1
    ∧ ¬ (1 : Int) ≤ 0 := by
  decide

/-- C9 as amended: `createLeaveRequest` performs no ordering check —
with an existing profile it always succeeds and persists a pending
request; when the end precedes the start by at least one full day the
persisted `days_requested` is `≤ 0` (a sub-day reversal still yields 1,
per the counterexample). -/
theorem createLeaveRequest_no_order_check (s : Store) (eid : Nat)
    (inp : CreateLeaveRequestInput) (h : employeeExists s eid = true)
    (hlt : inp.end_ms + msPerDay ≤ inp.start_ms) :
    ∃ r s2, createLeaveRequest s eid inp = .ok (r, s2)
      ∧ r.status = .pending
      ∧ r ∈ s2.leaveRequests
      ∧ r.days_requested ≤ 0 := by
  refine ⟨newLeaveRow s eid inp,
    { s with leaveRequests := s.leaveRequests ++ [newLeaveRow s eid inp] },
    by rw [createLeaveRequest, if_pos h], rfl, by simp, ?_⟩
  show ceilDiv (inp.end_ms - inp.start_ms) msPerDay + 1 ≤ 0
  have hpos : (0 : Int) < msPerDay := by decide
  have h1 : 1 ≤ (inp.start_ms - inp.end_ms).ediv msPerDay := by
    rw [show (inp.start_ms - inp.end_ms).ediv msPerDay
          = (inp.start_ms - inp.end_ms) / msPerDay from rfl,
        Int.le_ediv_iff_mul_le hpos]
    omega
  rw [ceilDiv, neg_sub]
  omega

/-- Witness for the amended C9 at a request backdated by two full days. -/
theorem createLeaveRequest_no_order_check_witness :
    employeeExists exEmp 1 = true
    ∧ exReversed.end_ms + msPerDay ≤ exReversed.start_ms
    ∧ (∃ r s2, createLeaveRequest exEmp 1 exReversed = .ok (r, s2)
        ∧ r.status = .pending
        ∧ r ∈ s2.leaveRequests
        ∧ r.days_requested ≤ 0) :=
  ⟨by decide, by decide,
    createLeaveRequest_no_order_check exEmp 1 exReversed (by decide) (by decide)⟩

/-- C1: for every employee with a profile, `getLeaveBalance` returns
`annual = 25 -` (sum of `days_requested` over the year window's
approved annual requests), `sick = 15 -` (same sum over approved sick
requests), and `total_used` = the sum over all approved requests in the
window, of all leave types; the result is a function of the approved
requests only (pending and rejected rows never affect it), and with
zero approved requests in the window it is
`{annual := 25, sick := 15, total_used := 0}`. -/
theorem getLeaveBalance_spec (s : Store) (eid : Nat) (ys ye : Int)
    (h : employeeExists s eid = true) :
    getLeaveBalance s eid ys ye = .ok
      { annual := 25 - sumDays ((approvedInYear s eid ys ye).filter
            fun r => r.leave_type == .annual)
        sick := 15 - sumDays ((approvedInYear s eid ys ye).filter
            fun r => r.leave_type == .sick)
        total_used := sumDays (approvedInYear s eid ys ye) }
    ∧ (∀ s' : Store, employeeExists s' eid = true →
        (s'.leaveRequests.filter fun l => l.status == .approved)
          = (s.leaveRequests.filter fun l => l.status == .approved) →
        getLeaveBalance s' eid ys ye = getLeaveBalance s eid ys ye)
    ∧ (approvedInYear s eid ys ye = [] →
        getLeaveBalance s eid ys ye
          = .ok { annual := 25, sick := 15, total_used := 0 }) := by
  have hmain : ∀ s'' : Store, employeeExists s'' eid = true →
      getLeaveBalance s'' eid ys ye = .ok
        { annual := 25 - sumDays ((approvedInYear s'' eid ys ye).filter
              fun r => r.leave_type == .annual)
          sick := 15 - sumDays ((approvedInYear s'' eid ys ye).filter
              fun r => r.leave_type == .sick)
          total_used := sumDays (approvedInYear s'' eid ys ye) } := by
    intro s'' h''
    rw [getLeaveBalance, if_pos h'']
    rw [balance_foldl]
    simp
  refine ⟨hmain s h, ?_, ?_⟩
  · intro s' h' hf
    rw [hmain s' h', hmain s h]
    simp only [approvedInYear_factor, hf]
  · intro hempty
    rw [hmain s h, hempty]
    simp [sumDays]

/-- Witness for C1: the year-window balance of the spec's worked example
(one approved 5-day annual, one approved 2-day sick, one pending, one
rejected request) is `{annual := 20, sick := 13, total_used := 7}`. -/
theorem getLeaveBalance_spec_witness :
    employeeExists exBal 1 = true
    ∧ getLeaveBalance exBal 1 0 364
        = .ok { annual := 20, sick := 13, total_used := 7 } := by
  refine ⟨by decide, ?_⟩
  rw [(getLeaveBalance_spec exBal 1 0 364 (by decide)).1]
  rfl

/-- C3: approving or rejecting a request that is not pending fails with
`InvalidState` (the status check precedes every write, so the store is
untouched); and whenever an approve or a reject succeeds, the request
was pending before, carries the new terminal status afterwards, and
every further approve or reject of it fails with `InvalidState` — a
request transitions at most once. -/
theorem leaveRequest_single_transition (s : Store) (rid aid aid2 : Nat)
    (inp : UpdateLeaveRequestStatusInput) (now now2 : Int) (r : LeaveRequest)
    (hfind : s.leaveRequests.find? (fun l => l.id == rid) = some r)
    (hinp : inp.id = rid) :
    (r.status ≠ .pending →
      approveLeaveRequest s rid aid now = .error .InvalidState
      ∧ rejectLeaveRequest s inp aid now = .error .InvalidState)
    ∧ (∀ r2 s2, approveLeaveRequest s rid aid now = .ok (r2, s2) →
        r.status = .pending ∧ r2.status = .approved
        ∧ approveLeaveRequest s2 rid aid2 now2 = .error .InvalidState
        ∧ rejectLeaveRequest s2 inp aid2 now2 = .error .InvalidState)
    ∧ (∀ r2 s2, rejectLeaveRequest s inp aid now = .ok (r2, s2) →
        r.status = .pending ∧ r2.status = .rejected
        ∧ approveLeaveRequest s2 rid aid2 now2 = .error .InvalidState
        ∧ rejectLeaveRequest s2 inp aid2 now2 = .error .InvalidState) := by
  obtain ⟨iid, irr⟩ := inp
  simp only at hinp
  subst hinp
  have happrove : ∀ (s' : Store) (r' : LeaveRequest) (a' : Nat) (n' : Int),
      s'.leaveRequests.find? (fun l => l.id == iid) = some r' →
      r'.status ≠ .pending →
      approveLeaveRequest s' iid a' n' = .error .InvalidState := by
    intro s' r' a' n' hf hnp
    rw [approveLeaveRequest, hf]
    simp only [if_pos hnp]
  have hreject : ∀ (s' : Store) (r' : LeaveRequest) (a' : Nat) (n' : Int),
      s'.leaveRequests.find? (fun l => l.id == iid) = some r' →
      r'.status ≠ .pending →
      rejectLeaveRequest s' ⟨iid, irr⟩ a' n' = .error .InvalidState := by
    intro s' r' a' n' hf hnp
    rw [rejectLeaveRequest]
    simp only [hf, if_pos hnp]
  refine ⟨fun hnp => ⟨happrove s r aid now hfind hnp, hreject s r aid now hfind hnp⟩,
    ?_, ?_⟩
  · intro r2 s2 hok
    rw [approveLeaveRequest, hfind] at hok
    dsimp only at hok
    by_cases hc : r.status ≠ .pending
    · rw [if_pos hc] at hok
      cases hok
    · rw [if_neg hc] at hok
      by_cases he : employeeExists s aid
      · rw [if_pos he] at hok
        rw [Except.ok.injEq, Prod.mk.injEq] at hok
        obtain ⟨hr2, hs2⟩ := hok
        have hid : (r.id == iid) = true := by
          have h5 := List.find?_some hfind
          simpa using h5
        have hfind2 : s2.leaveRequests.find? (fun l => l.id == iid)
            = some (approveRow aid now r) := by
          rw [← hs2]
          have := find?_map_of_id
            (fun l => if l.id == iid then approveRow aid now l else l) iid
            (fun x => by
              by_cases hx : (x.id == iid) = true <;> simp [hx, approveRow])
            s.leaveRequests r hfind
          simpa [hid] using this
        have hterm : (approveRow aid now r).status ≠ .pending := by
          simp [approveRow]
        exact ⟨not_not.mp hc, by rw [← hr2]; rfl,
          happrove s2 (approveRow aid now r) aid2 now2 hfind2 hterm,
          hreject s2 (approveRow aid now r) aid2 now2 hfind2 hterm⟩
      · rw [if_neg he] at hok
        cases hok
  · intro r2 s2 hok
    rw [rejectLeaveRequest] at hok
    simp only [hfind] at hok
    dsimp only at hok
    by_cases hc : r.status ≠ .pending
    · rw [if_pos hc] at hok
      cases hok
    · rw [if_neg hc] at hok
      by_cases he : employeeExists s aid
      · rw [if_pos he] at hok
        rw [Except.ok.injEq, Prod.mk.injEq] at hok
        obtain ⟨hr2, hs2⟩ := hok
        have hid : (r.id == iid) = true := by
          have h5 := List.find?_some hfind
          simpa using h5
        have hfind2 : s2.leaveRequests.find? (fun l => l.id == iid)
            = some (rejectRow ⟨iid, irr⟩ aid now r) := by
          rw [← hs2]
          have := find?_map_of_id
            (fun l => if l.id == iid then rejectRow ⟨iid, irr⟩ aid now l else l) iid
            (fun x => by
              by_cases hx : (x.id == iid) = true <;> simp [hx, rejectRow])
            s.leaveRequests r hfind
          simpa [hid] using this
        have hterm : (rejectRow ⟨iid, irr⟩ aid now r).status ≠ .pending := by
          simp [rejectRow]
        exact ⟨not_not.mp hc, by rw [← hr2]; rfl,
          happrove s2 (rejectRow ⟨iid, irr⟩ aid now r) aid2 now2 hfind2 hterm,
          hreject s2 (rejectRow ⟨iid, irr⟩ aid now r) aid2 now2 hfind2 hterm⟩
      · rw [if_neg he] at hok
        cases hok

/-- Witness for C3 at a store whose request 5 is already approved. -/
theorem leaveRequest_single_transition_witness :
    exApproved.leaveRequests.find? (fun l => l.id == 5)
        = some ⟨5, 9, .annual, 0, 1, 2, "offsite", .approved, some 9, some 0, none⟩
    ∧ ((⟨5, 9, .annual, 0, 1, 2, "offsite", .approved, some 9, some 0, none⟩
          : LeaveRequest).status ≠ .pending →
        approveLeaveRequest exApproved 5 9 0 = .error .InvalidState
        ∧ rejectLeaveRequest exApproved ⟨5, none⟩ 9 0 = .error .InvalidState) :=
  ⟨by decide,
    (leaveRequest_single_transition exApproved 5 9 9 ⟨5, none⟩ 0 1
      ⟨5, 9, .annual, 0, 1, 2, "offsite", .approved, some 9, some 0, none⟩
      (by decide) rfl).1⟩

/-- C8: deleting an existing department fails with `Conflict` — the
check precedes the delete, so nothing is written — whenever at least
one employee profile's department string equals the department's name;
with zero matches it succeeds, removes exactly the rows with that id
and touches no other table. -/
theorem deleteDepartment_spec (s : Store) (did : Nat) (dept : Department)
    (hfind : s.departments.find? (fun d => d.id == did) = some dept) :
    ((s.employees.any fun e => e.department == some dept.name) = true →
        deleteDepartment s did = .error .Conflict)
    ∧ ((s.employees.any fun e => e.department == some dept.name) = false →
        ∃ s2, deleteDepartment s did = .ok (true, s2)
          ∧ s2.employees = s.employees
          ∧ s2.attendance = s.attendance
          ∧ s2.leaveRequests = s.leaveRequests
          ∧ (∀ d, d ∈ s2.departments ↔ d ∈ s.departments ∧ d.id ≠ did)
          ∧ dept ∉ s2.departments) := by
  constructor
  · intro hany
    obtain ⟨e, he, hpe⟩ := List.any_eq_true.mp hany
    have hmem : e ∈ s.employees.filter fun x => x.department == some dept.name :=
      List.mem_filter.mpr ⟨he, hpe⟩
    have hpos : 0 < (s.employees.filter
        fun x => x.department == some dept.name).length :=
      List.length_pos.mpr (List.ne_nil_of_mem hmem)
    rw [deleteDepartment, hfind]
    dsimp only
    rw [if_pos hpos]
  · intro hfalse
    have hnil : (s.employees.filter fun x => x.department == some dept.name)
        = [] := by
      rw [List.filter_eq_nil_iff]
      intro a ha hpa
      rw [List.any_eq_false] at hfalse
      exact hfalse a ha hpa
    refine ⟨{ s with departments :=
        s.departments.filter fun d => !(d.id == did) }, ?_, rfl, rfl, rfl, ?_, ?_⟩
    · rw [deleteDepartment, hfind]
      dsimp only
      rw [if_neg (by simp [hnil])]
    · intro d
      simp [List.mem_filter]
    · have hid : dept.id = did := by simpa using List.find?_some hfind
      intro hmem
      rw [List.mem_filter] at hmem
      simp [hid] at hmem

/-- Witness for C8 at a department with one matching employee. -/
theorem deleteDepartment_spec_witness :
    exDeptBusy.departments.find? (fun d => d.id == 3) = some ⟨3, "Sales"⟩
    ∧ ((exDeptBusy.employees.any
          fun e => e.department == some (⟨3, "Sales"⟩ : Department).name) = true →
        deleteDepartment exDeptBusy 3 = .error .Conflict) :=
  ⟨by decide, (deleteDepartment_spec exDeptBusy 3 ⟨3, "Sales"⟩ (by decide)).1⟩

/-- C5 fails as stated: a store with one department row and role
`employee` (neither manager nor admin / hr_manager) gets
`total_departments = 0`, not the department count 1 the claim
promises for every non-manager role. -/
theorem totalDepartments_claim_cex :
    (getDashboardStats exOneDept "employee" none 0).total_departments = 0
    ∧ exOneDept.departments.length = 1
    ∧ (0 : Int) ≠ 1 := by
  decide

/-- C5 as amended: `total_departments` is the department count for the
admin and hr_manager roles and `0` for every other role — manager,
employee, or anything else. -/
theorem totalDepartments_by_role (s : Store) (userRole : String)
    (eid : Option Nat) (t : Int) :
    ((userRole = "admin" ∨ userRole = "hr_manager") →
        (getDashboardStats s userRole eid t).total_departments
          = (s.departments.length : Int))
    ∧ (userRole ≠ "admin" → userRole ≠ "hr_manager" →
        (getDashboardStats s userRole eid t).total_departments = 0) := by
  constructor
  · intro hrole
    simp only [getDashboardStats]
    rcases hrole with h | h <;> simp [h]
  · intro h1 h2
    have b1 : (userRole == "admin") = false := by simpa using h1
    have b2 : (userRole == "hr_manager") = false := by simpa using h2
    simp only [getDashboardStats]
    simp [b1, b2]

/-- Witness for the amended C5 at both an admin call and an employee
call on a one-department store. -/
theorem totalDepartments_by_role_witness :
    ("admin" = "admin" ∨ "admin" = "hr_manager")
    ∧ (getDashboardStats exOneDept "admin" none 0).total_departments
        = (exOneDept.departments.length : Int)
    ∧ "employee" ≠ "admin"
    ∧ (getDashboardStats exOneDept "employee" none 0).total_departments = 0 :=
  ⟨Or.inl rfl,
    (totalDepartments_by_role exOneDept "admin" none 0).1 (Or.inl rfl),
    by decide,
    (totalDepartments_by_role exOneDept "employee" none 0).2 (by decide) (by decide)⟩

/-- C10: `absent_today` is exactly
`total_employees - present_today - late_today` with no clamping, and a
store whose single employee has two `present` attendance rows dated
today receives the negative value `-1`. -/
theorem absentToday_no_clamp :
    (∀ (s : Store) (userRole : String) (eid : Option Nat) (t : Int),
      (getDashboardStats s userRole eid t).absent_today
        = (getDashboardStats s userRole eid t).total_employees
          - (getDashboardStats s userRole eid t).present_today
          - (getDashboardStats s userRole eid t).late_today)
    ∧ exDoubleRow.employees.length = 1
    ∧ (getDashboardStats exDoubleRow "admin" none 0).absent_today = -1
    ∧ (getDashboardStats exDoubleRow "admin" none 0).absent_today < 0 := by
  refine ⟨?_, by decide, by decide, by decide⟩
  intro s userRole eid t
  simp only [getDashboardStats]

/-- The handler's guarded average is the mean with empty-list default. -/
lemma meanQ_eq (L : List ℚ) :
    (if L.length > 0 then L.sum / (L.length : ℚ) else 0) = meanQ L := by
  cases L with
  | nil => simp [meanQ]
  | cons q L => simp [meanQ]

/-- C6 as amended: `average_work_hours` is the mean of the non-null
work hours of the scoped attendance rows dated within `today - 7`
through `today` inclusive — an eight-day window, one day more than the
claim's `today - 6` — rounded to one decimal, and 0 when there are no
such rows (the default is part of `meanQ`). -/
theorem averageWorkHours_window (s : Store) (userRole : String)
    (eid : Option Nat) (t : Int)
    (h : (s.employees.map fun e => e.id).Nodup) :
    (getDashboardStats s userRole eid t).average_work_hours
      = round1 (meanQ (weekWindowHours s userRole eid t)) := by
  have hrows : (s.attendance.filter fun a =>
      decide (t - 7 ≤ a.date) && decide (a.date ≤ t) &&
        scopePass s (managerScoped userRole eid) (eid.getD 0) a.employee_id)
      = s.attendance.filter fun a =>
      decide (t - 7 ≤ a.date) && decide (a.date ≤ t) &&
        s.employees.any fun e => e.id == a.employee_id &&
          (!(managerScoped userRole eid) || e.manager_id == some (eid.getD 0)) :=
    List.filter_congr fun a _ => by rw [scopePass_eq_any s _ _ _ h]
  simp only [getDashboardStats]
  rw [hrows, weekWindowHours, meanQ_eq]

/-- Witness for the amended C6 at a concrete store (empty window). -/
theorem averageWorkHours_window_witness :
    (exEmp.employees.map fun e => e.id).Nodup
    ∧ (getDashboardStats exEmp "admin" none 0).average_work_hours
        = round1 (meanQ (weekWindowHours exEmp "admin" none 0)) :=
  ⟨by decide, averageWorkHours_window exEmp "admin" none 0 (by decide)⟩

/-- C6 fails as stated: in a store whose single attendance row is dated
`today - 7` (today = 7) with 8 work hours, no row at all is dated
within `today - 6 .. today`, yet the returned average is 8, not 0 —
the handler's window really starts at `today - 7`. -/
theorem averageWorkHours_window_cex :
    (exWeekEdge.attendance.filter fun a =>
        decide (7 - 6 ≤ a.date) && decide (a.date ≤ 7)) = []
    ∧ (getDashboardStats exWeekEdge "admin" none 7).average_work_hours = 8
    ∧ (8 : ℚ) ≠ 0 := by
  refine ⟨by decide, ?_, by norm_num⟩
  rw [averageWorkHours_window exWeekEdge "admin" none 7 (by decide)]
  have hw : weekWindowHours exWeekEdge "admin" none 7 = [8] := by
    norm_num [weekWindowHours, exWeekEdge, managerScoped, truthy,
      List.filter, List.filterMap]
  rw [hw]
  norm_num [meanQ, round1, jsRound, round_eq]

/-- C7: `getDepartmentStats` returns one entry per distinct non-null
department label (employees without a department are ignored); each
entry's `total_employees` counts the string-matching employees, its
`present_today` counts today's attendance rows (behind the join) of
that department in status present or late, and its `attendance_rate`
is `round(present / total * 1000) / 10` (0 for an empty department);
the list is sorted by `total_employees` descending.  In particular,
2 employees with 1 present gives rate 50 and 1 employee with 1 present
gives rate 100. -/
theorem getDepartmentStats_spec (s : Store) (t : Int)
    (h : (s.employees.map fun e => e.id).Nodup) :
    ((getDepartmentStats s t).map fun e => e.department).Perm (deptLabels s)
    ∧ ((getDepartmentStats s t).map fun e => e.department).Nodup
    ∧ (∀ e ∈ getDepartmentStats s t,
        e.total_employees
            = (s.employees.filter fun p => p.department == some e.department).length
        ∧ e.present_today = (s.attendance.filter fun a =>
            (a.status == .present || a.status == .late) &&
              (a.date == t && s.employees.any fun p =>
                p.id == a.employee_id && p.department == some e.department)).length
        ∧ e.attendance_rate = (if 0 < e.total_employees
            then (jsRound ((e.present_today : ℚ) / (e.total_employees : ℚ) * 1000) : ℚ) / 10
            else 0))
    ∧ (getDepartmentStats s t).Pairwise
        (fun a b => b.total_employees ≤ a.total_employees)
    ∧ (deptEntry exDeptRates 0 "Engineering").attendance_rate = 50
    ∧ (deptEntry exDeptRates 0 "HR").attendance_rate = 100 := by
  have hperm0 : (getDepartmentStats s t).Perm
      ((deptLabels s).map (deptEntry s t)) := List.mergeSort_perm _ _
  have hmapped : (((deptLabels s).map (deptEntry s t)).map
      fun e => e.department) = deptLabels s := by
    rw [List.map_map]
    have : ((fun e : DepartmentStat => e.department) ∘ deptEntry s t)
        = fun d => d := by
      funext d; rfl
    rw [this]
    exact List.map_id' _
  have hperm : ((getDepartmentStats s t).map fun e => e.department).Perm
      (deptLabels s) := by
    have := hperm0.map fun e => e.department
    rwa [hmapped] at this
  refine ⟨hperm, hperm.nodup_iff.mpr (List.nodup_dedup _), ?_, ?_, ?_, ?_⟩
  · intro e he
    have he2 : e ∈ (deptLabels s).map (deptEntry s t) := hperm0.mem_iff.mp he
    obtain ⟨d, _, rfl⟩ := List.mem_map.mp he2
    have hdep : (deptEntry s t d).department = d := rfl
    rw [hdep]
    have htot : (deptEntry s t d).total_employees
        = (s.employees.filter fun p => p.department == some d).length := rfl
    have hpres : (deptEntry s t d).present_today
        = ((s.attendance.filter fun a =>
            a.date == t && lookupCheck (fun e => e.department == some d)
              a.employee_id s.employees).filter
                fun a => a.status == AttendanceStatus.present).length
          + ((s.attendance.filter fun a =>
            a.date == t && lookupCheck (fun e => e.department == some d)
              a.employee_id s.employees).filter
                fun a => a.status == AttendanceStatus.late).length := rfl
    have hrate : (deptEntry s t d).attendance_rate
        = (if 0 < (s.employees.filter fun p => p.department == some d).length
          then round1 (((deptEntry s t d).present_today : ℚ)
            / (((s.employees.filter
                fun p => p.department == some d).length : Nat) : ℚ) * 100)
          else 0) := rfl
    refine ⟨htot, ?_, ?_⟩
    · rw [hpres]
      rw [length_filter_disjoint
        (fun a : Attendance => a.status == AttendanceStatus.present)
        (fun a : Attendance => a.status == AttendanceStatus.late)
        (by
          intro a hpa
          have hsa : a.status = AttendanceStatus.present := by simpa using hpa
          simp [hsa])]
      rw [List.filter_filter]
      refine congrArg List.length (List.filter_congr fun a _ => ?_)
      rw [lookupCheck_eq_any _ _ _ h]
    · rw [hrate, htot]
      by_cases hpos :
          0 < (s.employees.filter fun p => p.department == some d).length
      · rw [if_pos hpos, if_pos hpos, round1]
        rw [show ∀ x : ℚ, x * 100 * 10 = x * 1000 from fun x => by ring]
      · rw [if_neg hpos, if_neg hpos]
  · refine List.Pairwise.imp ?_ (List.sorted_mergeSort ?_ ?_ _)
    · intro a b hab
      simpa [deptGE] using hab
    · intro a b c hab hbc
      simp only [deptGE, decide_eq_true_eq] at *
      omega
    · intro a b
      simp only [deptGE, Bool.or_eq_true, decide_eq_true_eq]
      omega
  · have hre : (deptEntry exDeptRates 0 "Engineering").attendance_rate
        = (if 0 < (deptEntry exDeptRates 0 "Engineering").total_employees
          then round1 (((deptEntry exDeptRates 0 "Engineering").present_today : ℚ)
            / ((deptEntry exDeptRates 0 "Engineering").total_employees : ℚ) * 100)
          else 0) := rfl
    rw [hre,
      show (deptEntry exDeptRates 0 "Engineering").total_employees = 2 from by decide,
      show (deptEntry exDeptRates 0 "Engineering").present_today = 1 from by decide]
    norm_num [round1, jsRound, round_eq]
  · have hrh : (deptEntry exDeptRates 0 "HR").attendance_rate
        = (if 0 < (deptEntry exDeptRates 0 "HR").total_employees
          then round1 (((deptEntry exDeptRates 0 "HR").present_today : ℚ)
            / ((deptEntry exDeptRates 0 "HR").total_employees : ℚ) * 100)
          else 0) := rfl
    rw [hrh,
      show (deptEntry exDeptRates 0 "HR").total_employees = 1 from by decide,
      show (deptEntry exDeptRates 0 "HR").present_today = 1 from by decide]
    norm_num [round1, jsRound, round_eq]

/-- Witness for C7 at the two-department example store. -/
theorem getDepartmentStats_spec_witness :
    (exDeptRates.employees.map fun e => e.id).Nodup
    ∧ ((getDepartmentStats exDeptRates 0).map fun e => e.department).Perm
        (deptLabels exDeptRates)
    ∧ (getDepartmentStats exDeptRates 0).Pairwise
        (fun a b => b.total_employees ≤ a.total_employees) :=
  ⟨by decide,
    (getDepartmentStats_spec exDeptRates 0 (by decide)).1,
    (getDepartmentStats_spec exDeptRates 0 (by decide)).2.2.2.1⟩

/-- Under the manager scope (`scp = true`), the join-plus-scope check
is membership of the row's owner among the direct reports. -/
lemma scopePass_manager (s : Store) (m : Nat)
    (h : (s.employees.map fun e => e.id).Nodup) (eid : Nat) :
    scopePass s true m eid
      = s.employees.any fun e => e.id == eid && e.manager_id == some m := by
  rw [scopePass_eq_any s true m eid h]
  simp

/-- A manager-scoped attendance query factors through the restriction
to the direct reports' attendance rows. -/
lemma filter_scope_att (s : Store) (m : Nat) (q : Attendance → Bool)
    (h : (s.employees.map fun e => e.id).Nodup) :
    (s.attendance.filter fun a => q a && scopePass s true m a.employee_id)
      = (scopedAttendance s m).filter q := by
  have hcong : (s.attendance.filter
        fun a => q a && scopePass s true m a.employee_id)
      = s.attendance.filter fun a => q a &&
          s.employees.any fun e =>
            e.id == a.employee_id && e.manager_id == some m :=
    List.filter_congr fun a _ => by
      rw [scopePass_manager s m h a.employee_id]
  rw [hcong, scopedAttendance, List.filter_filter]

/-- A manager-scoped leave query with an extra row predicate factors
through the restriction to the direct reports' leave rows. -/
lemma filter_scope_leave (s : Store) (m : Nat) (q : LeaveRequest → Bool)
    (h : (s.employees.map fun e => e.id).Nodup) :
    (s.leaveRequests.filter fun l => q l && scopePass s true m l.employee_id)
      = (scopedLeaves s m).filter q := by
  have hcong : (s.leaveRequests.filter
        fun l => q l && scopePass s true m l.employee_id)
      = s.leaveRequests.filter fun l => q l &&
          s.employees.any fun e =>
            e.id == l.employee_id && e.manager_id == some m :=
    List.filter_congr fun l _ => by
      rw [scopePass_manager s m h l.employee_id]
  rw [hcong, scopedLeaves, List.filter_filter]

/-- A manager-scoped leave query with no extra predicate is exactly the
direct reports' leave rows. -/
lemma filter_scope_leave_all (s : Store) (m : Nat)
    (h : (s.employees.map fun e => e.id).Nodup) :
    (s.leaveRequests.filter fun l => scopePass s true m l.employee_id)
      = scopedLeaves s m := by
  rw [scopedLeaves]
  exact List.filter_congr fun l _ => scopePass_manager s m h l.employee_id

/-- C4: with role manager and a (truthy) `employeeId`, both dashboard
aggregations read only rows of the manager's direct reports — two
stores with primary-key-unique employee ids that agree on the direct
reports and on their attendance and leave rows give identical results;
with role employee (any `employeeId`), or role manager without
`employeeId`, both aggregations are computed with no scope restriction,
identically to the organization-wide hr_manager call (up to the
role-gated `total_departments`, which is 0 outside admin/hr_manager). -/
theorem dashboard_scoping (s1 s2 s : Store) (m : Nat) (eid : Option Nat)
    (t ms nm : Int)
    (h1 : (s1.employees.map fun e => e.id).Nodup)
    (h2 : (s2.employees.map fun e => e.id).Nodup)
    (hm : m ≠ 0)
    (hdr : directReports s1 m = directReports s2 m)
    (hatt : scopedAttendance s1 m = scopedAttendance s2 m)
    (hlv : scopedLeaves s1 m = scopedLeaves s2 m) :
    (getDashboardStats s1 "manager" (some m) t
        = getDashboardStats s2 "manager" (some m) t)
    ∧ (getLeaveStats s1 "manager" (some m) ms nm
        = getLeaveStats s2 "manager" (some m) ms nm)
    ∧ (getDashboardStats s "employee" eid t
        = { getDashboardStats s "hr_manager" none t with total_departments := 0 })
    ∧ (getDashboardStats s "manager" none t
        = { getDashboardStats s "hr_manager" none t with total_departments := 0 })
    ∧ (getLeaveStats s "employee" eid ms nm
        = getLeaveStats s "hr_manager" none ms nm)
    ∧ (getLeaveStats s "manager" none ms nm
        = getLeaveStats s "hr_manager" none ms nm) := by
  have hscp : managerScoped "manager" (some m) = true := by
    simp [managerScoped, truthy, hm]
  have hdr' : (s1.employees.filter fun e => e.manager_id == some m)
      = s2.employees.filter fun e => e.manager_id == some m := hdr
  refine ⟨?_, ?_, ?_, ?_, ?_, ?_⟩
  · simp only [getDashboardStats, hscp, Option.getD_some, if_true]
    rw [filter_scope_att s1 m (fun a => a.date == t) h1,
      filter_scope_att s1 m
        (fun a => decide (t - 7 ≤ a.date) && decide (a.date ≤ t)) h1,
      filter_scope_leave s1 m (fun l => l.status == .pending) h1,
      hdr', hatt, hlv,
      ← filter_scope_att s2 m (fun a => a.date == t) h2,
      ← filter_scope_att s2 m
        (fun a => decide (t - 7 ≤ a.date) && decide (a.date ≤ t)) h2,
      ← filter_scope_leave s2 m (fun l => l.status == .pending) h2]
    simp only [if_neg (show
      ¬ (("manager" == "admin" || "manager" == "hr_manager") = true) from
        by decide)]
  · simp only [getLeaveStats, hscp, Option.getD_some, if_true]
    rw [filter_scope_leave_all s1 m h1, hlv,
      ← filter_scope_leave_all s2 m h2]
  · have he1 : managerScoped "employee" eid = false := by
      simp [managerScoped]
    have he2 : managerScoped "hr_manager" none = false := by
      simp [managerScoped, truthy]
    simp only [getDashboardStats, he1, he2, scopePass, Bool.not_false,
      Bool.true_or]
    simp
  · have he1 : managerScoped "manager" none = false := by
      simp [managerScoped, truthy]
    have he2 : managerScoped "hr_manager" none = false := by
      simp [managerScoped, truthy]
    simp only [getDashboardStats, he1, he2, scopePass, Bool.not_false,
      Bool.true_or]
    simp
  · have he1 : managerScoped "employee" eid = false := by
      simp [managerScoped]
    have he2 : managerScoped "hr_manager" none = false := by
      simp [managerScoped, truthy]
    simp only [getLeaveStats, he1, he2, scopePass, Bool.not_false,
      Bool.true_or]
  · have he1 : managerScoped "manager" none = false := by
      simp [managerScoped, truthy]
    have he2 : managerScoped "hr_manager" none = false := by
      simp [managerScoped, truthy]
    simp only [getLeaveStats, he1, he2, scopePass, Bool.not_false,
      Bool.true_or]

/-- Witness for C4: the two concrete stores differ only in rows of
employee 3, who does not report to manager 1, and in a department row. -/
theorem dashboard_scoping_witness :
    ((exScope1.employees.map fun e => e.id).Nodup
      ∧ (exScope2.employees.map fun e => e.id).Nodup
      ∧ (1 : Nat) ≠ 0
      ∧ directReports exScope1 1 = directReports exScope2 1
      ∧ scopedAttendance exScope1 1 = scopedAttendance exScope2 1
      ∧ scopedLeaves exScope1 1 = scopedLeaves exScope2 1)
    ∧ getDashboardStats exScope1 "manager" (some 1) 0
        = getDashboardStats exScope2 "manager" (some 1) 0 :=
  ⟨⟨by decide, by decide, by decide, by decide, by decide, by decide⟩,
    (dashboard_scoping exScope1 exScope2 exScope1 1 none 0 0 0
      (by decide) (by decide) (by decide) (by decide) (by decide) (by decide)).1⟩

end HRD
